import Mathlib

/-!
Verification of `src/starplug.py`, a debugger-driven instrumentation script:
it attaches to a running target by name, gates on a one-shot breakpoint on a
library function, reads the target's `__text` section, searches it for a fixed
7-byte instruction signature, installs a breakpoint at the match address, and
on every hit prints the `ebx` register value and resumes.

The embedding models bytes as natural numbers below 256 (the proofs never need
the bound), addresses and sizes as naturals, and the debugging backend (lldb)
as a record of oracle responses.  The script itself is a straight-line program
whose only control flow is `assert error.success` after each fallible call and
the exception raised by `bytes.index` when the signature is absent; it is
embedded as a function from backend responses to a trace of backend events plus
an `Except` outcome.
-/

/-- Embedding of Python `bytes.index` (auxiliary): scan `l` left to right,
`i` being the absolute offset of the head of `l` in the original buffer;
return the absolute offset of the first position where `S` is a prefix. -/
def bytesIndexAux (S : List Nat) : List Nat → Nat → Option Nat
  | [], i => if S.isPrefixOf [] then some i else none
  | b :: rest, i =>
    if S.isPrefixOf (b :: rest) then some i else bytesIndexAux S rest (i + 1)

/-- Embedding of `code_bytes.index(sig)` at line 50 of `starplug.py`:
offset of the first occurrence of `S` in `B`, `none` when absent
(Python raises `ValueError` there). -/
def bytesIndex (S B : List Nat) : Option Nat :=
  bytesIndexAux S B 0

/-- `isPrefixOf` on byte lists agrees with `take`-equality. -/
theorem isPrefixOf_take_eq :
    ∀ (S t : List Nat), S.isPrefixOf t = true ↔ t.take S.length = S := by
  intro S
  induction S with
  | nil => intro t; simp [List.isPrefixOf]
  | cons a S ih =>
    intro t
    cases t with
    | nil => simp [List.isPrefixOf]
    | cons b t =>
      simp only [List.isPrefixOf, List.length_cons, List.take_succ_cons,
        Bool.and_eq_true, beq_iff_eq, List.cons.injEq]
      constructor
      · rintro ⟨hab, hp⟩
        exact ⟨hab.symm, (ih t).mp hp⟩
      · rintro ⟨hab, hp⟩
        exact ⟨hab.symm, (ih t).mpr hp⟩

theorem bytesIndexAux_some (S : List Nat) :
    ∀ (l : List Nat) (i j : Nat), bytesIndexAux S l i = some j →
      ∃ d, j = i + d ∧ S.isPrefixOf (l.drop d) = true ∧
        ∀ k, k < d → S.isPrefixOf (l.drop k) = false := by
  intro l
  induction l with
  | nil =>
    intro i j h
    simp only [bytesIndexAux] at h
    by_cases hp : S.isPrefixOf ([] : List Nat) = true
    · refine ⟨0, ?_, ?_, ?_⟩
      · simp [hp] at h; omega
      · simpa using hp
      · intro k hk; omega
    · simp [hp] at h
  | cons b rest ih =>
    intro i j h
    simp only [bytesIndexAux] at h
    by_cases hp : S.isPrefixOf (b :: rest) = true
    · refine ⟨0, ?_, ?_, ?_⟩
      · simp [hp] at h; omega
      · simpa using hp
      · intro k hk; omega
    · simp only [hp, if_false] at h
      obtain ⟨d, hd, hpre, hmin⟩ := ih (i + 1) j h
      refine ⟨d + 1, by omega, by simpa using hpre, ?_⟩
      intro k hk
      cases k with
      | zero => simpa using Bool.eq_false_iff.mpr hp
      | succ k => simpa using hmin k (by omega)

theorem bytesIndexAux_found (S : List Nat) :
    ∀ (l : List Nat) (k i : Nat), S.isPrefixOf (l.drop k) = true →
      ∃ j, bytesIndexAux S l i = some j := by
  intro l
  induction l with
  | nil =>
    intro k i h
    simp only [List.drop_nil] at h
    exact ⟨i, by simp [bytesIndexAux, h]⟩
  | cons b rest ih =>
    intro k i h
    by_cases hp : S.isPrefixOf (b :: rest) = true
    · exact ⟨i, by simp [bytesIndexAux, hp]⟩
    · cases k with
      | zero => simp only [List.drop_zero] at h; exact absurd h hp
      | succ k =>
        obtain ⟨j, hj⟩ := ih k (i + 1) (by simpa using h)
        exact ⟨j, by simp [bytesIndexAux, hp, hj]⟩

/-- When the signature occurs nowhere in the buffer, the search fails. -/
theorem bytesIndex_eq_none (S B : List Nat)
    (h : ∀ k, S.isPrefixOf (B.drop k) = false) : bytesIndex S B = none := by
  rcases hn : bytesIndex S B with _ | j
  · rfl
  · obtain ⟨d, _, hpre, _⟩ := bytesIndexAux_some S B 0 j hn
    rw [h d] at hpre
    exact absurd hpre (by simp)

/-- Non-occurrence of a nonempty signature only needs checking below the
buffer's length: past it every suffix is empty. -/
theorem no_occurrence_of_bounded (S B : List Nat) (hS : S ≠ [])
    (h : ∀ k, k < B.length → S.isPrefixOf (B.drop k) = false) :
    ∀ k, S.isPrefixOf (B.drop k) = false := by
  intro k
  by_cases hk : k < B.length
  · exact h k hk
  · rw [List.drop_eq_nil_of_le (by omega)]
    cases S with
    | nil => exact absurd rfl hS
    | cons a S => simp [List.isPrefixOf]

/-- Value of a hexadecimal digit character, `none` for non-digits.
Covers the digit alphabets of all bases Python `int(s, 0)` can detect. -/
def hexDigitVal (c : Char) : Option Nat :=
  if '0' ≤ c ∧ c ≤ '9' then some (c.toNat - '0'.toNat)
  else if 'a' ≤ c ∧ c ≤ 'f' then some (c.toNat - 'a'.toNat + 10)
  else if 'A' ≤ c ∧ c ≤ 'F' then some (c.toNat - 'A'.toNat + 10)
  else none

/-- Accumulate digit characters left to right in base `base`,
starting from the value `acc`; `none` on the first non-digit. -/
def parseDigitsAux (base : Nat) : List Char → Nat → Option Nat
  | [], acc => some acc
  | c :: cs, acc =>
    match hexDigitVal c with
    | some d => if d < base then parseDigitsAux base cs (acc * base + d) else none
    | none => none

/-- Parse a nonempty run of digits in base `base`. -/
def parseDigits (base : Nat) (cs : List Char) : Option Nat :=
  match cs with
  | [] => none
  | _ :: _ => parseDigitsAux base cs 0

/-- Embedding of Python `int(s, 0)` (automatic base detection) on the
character list of `s`, restricted to the non-negative unsigned literals that
lldb produces for register values: a `0x`/`0X` run is hexadecimal, `0o`/`0O`
octal, `0b`/`0B` binary, a plain run of digits decimal; a bare run of zeros is
`0`, and a nonzero decimal literal may not start with `0` (Python raises
`ValueError` there, returned as `none`). -/
def pyIntChars : List Char → Option Nat
  | [] => none
  | c :: rest =>
    if c = '0' then
      match rest with
      | [] => some 0
      | x :: rest2 =>
        if x = 'x' ∨ x = 'X' then parseDigits 16 rest2
        else if x = 'o' ∨ x = 'O' then parseDigits 8 rest2
        else if x = 'b' ∨ x = 'B' then parseDigits 2 rest2
        else if (x :: rest2).all (· = '0') then some 0
        else none
    else parseDigits 10 (c :: rest)

/-- Embedding of `int(register.value, 0)` at line 59 of `starplug.py`
(and line 17 of its transcript docstring). -/
def pyIntBase0 (s : String) : Option Nat :=
  pyIntChars s.toList

/-- Digit character of a value below 16 (lowercase, as Python prints hex). -/
def digitChar (d : Nat) : Char :=
  if d < 10 then Char.ofNat ('0'.toNat + d)
  else Char.ofNat ('a'.toNat + (d - 10))

/-- Most-significant-first digit string of `n` in base `b` (for `2 ≤ b ≤ 16`),
the shape of the strings a backend formats register values in. -/
def natBaseChars (b : Nat) (n : Nat) : List Char :=
  if h : n < b ∨ b ≤ 1 then [digitChar n]
  else natBaseChars b (n / b) ++ [digitChar (n % b)]
decreasing_by
  push_neg at h
  exact Nat.div_lt_self (by omega) (by omega)

theorem hexDigitVal_digitChar : ∀ d, d < 16 → hexDigitVal (digitChar d) = some d := by
  decide

theorem parseDigitsAux_append (base : Nat) :
    ∀ (l₁ l₂ : List Char) (acc : Nat),
      parseDigitsAux base (l₁ ++ l₂) acc =
        match parseDigitsAux base l₁ acc with
        | some a => parseDigitsAux base l₂ a
        | none => none := by
  intro l₁
  induction l₁ with
  | nil => intro l₂ acc; rfl
  | cons c cs ih =>
    intro l₂ acc
    simp only [List.cons_append, parseDigitsAux]
    rcases hexDigitVal c with _ | d
    · rfl
    · by_cases hdb : d < base
      · simp only [hdb, if_true]; exact ih l₂ _
      · simp [hdb]

theorem parseDigitsAux_natBaseChars (b : Nat) (hb2 : 2 ≤ b) (hb16 : b ≤ 16) :
    ∀ (n acc : Nat), parseDigitsAux b (natBaseChars b n) acc =
      some (acc * b ^ (natBaseChars b n).length + n) := by
  intro n
  induction n using Nat.strong_induction_on with
  | _ n ih =>
    intro acc
    by_cases h : n < b ∨ b ≤ 1
    · have hnb : n < b := by omega
      rw [natBaseChars, dif_pos h]
      simp only [parseDigitsAux, hexDigitVal_digitChar n (by omega), hnb,
        if_true, List.length_singleton, pow_one]
    · rw [natBaseChars, dif_neg h]
      push_neg at h
      have hdiv : n / b < n := Nat.div_lt_self (by omega) (by omega)
      rw [parseDigitsAux_append]
      rw [ih (n / b) hdiv acc]
      have hmod : n % b < b := Nat.mod_lt _ (by omega)
      simp only [parseDigitsAux, hexDigitVal_digitChar (n % b) (by omega),
        hmod, if_true, List.length_append, List.length_singleton]
      congr 1
      generalize (natBaseChars b (n / b)).length = L
      calc (acc * b ^ L + n / b) * b + n % b
          = acc * (b ^ L * b) + (b * (n / b) + n % b) := by ring
        _ = acc * b ^ (L + 1) + n := by rw [← pow_succ, Nat.div_add_mod]

theorem natBaseChars_ne_nil (b n : Nat) : natBaseChars b n ≠ [] := by
  rw [natBaseChars]
  by_cases h : n < b ∨ b ≤ 1
  · simp [h]
  · simp [h]

/-- Parsing the base-`b` digit string of `n` recovers `n`. -/
theorem parseDigits_natBaseChars (b : Nat) (hb2 : 2 ≤ b) (hb16 : b ≤ 16)
    (n : Nat) : parseDigits b (natBaseChars b n) = some n := by
  rcases hc : natBaseChars b n with _ | ⟨c, cs⟩
  · exact absurd hc (natBaseChars_ne_nil b n)
  · rw [parseDigits, ← hc, parseDigitsAux_natBaseChars b hb2 hb16 n 0]
    simp


/-- A register as the callback sees it: a name and the backend's textual
rendering of its current value (`register.name`, `register.value`). -/
structure Reg where
  name : String
  value : String
deriving DecidableEq

/-- A register group of a frame (`group.name`, `group.children`). -/
structure RegGroup where
  name : String
  children : List Reg
deriving DecidableEq

/-- The halted thread's frame as the callback sees it (`frame.registers`). -/
structure Frame where
  registers : List RegGroup
deriving DecidableEq

/-- Inner loop of the breakpoint callback (lines 57-59 of `starplug.py`):
for each register named `ebx`, print one line `APM: <int(value, 0)>`.
Python's `print('APM:', v)` separates its arguments with one space.
A value `int` cannot parse raises `ValueError`, which aborts the callback;
this is the `Except.error` case. -/
def regsLines : List Reg → Except Unit (List String)
  | [] => Except.ok []
  | r :: rs =>
    if r.name = "ebx" then
      match pyIntBase0 r.value with
      | some v =>
        match regsLines rs with
        | Except.ok rest => Except.ok (("APM: " ++ toString v) :: rest)
        | Except.error e => Except.error e
      | none => Except.error ()
    else regsLines rs

/-- Outer loop of the breakpoint callback (lines 55-56 of `starplug.py`):
only groups named `General Purpose Registers` are searched. -/
def groupsLines : List RegGroup → Except Unit (List String)
  | [] => Except.ok []
  | g :: gs =>
    if g.name = "General Purpose Registers" then
      match regsLines g.children with
      | Except.ok a =>
        match groupsLines gs with
        | Except.ok c => Except.ok (a ++ c)
        | Except.error e => Except.error e
      | Except.error e => Except.error e
    else groupsLines gs

/-- The whole script callback installed by `SetScriptCallbackBody`
(lines 54-61 of `starplug.py`): the printed lines paired with the callback's
return value.  The source ends in `return False` unconditionally, which tells
lldb not to stop: the target is always resumed after the handler runs. -/
def callbackRun (f : Frame) : Except Unit (List String × Bool) :=
  match groupsLines f.registers with
  | Except.ok ls => Except.ok (ls, false)
  | Except.error e => Except.error e

/-- The value strings of the `ebx` registers the callback's loops reach:
those inside groups named `General Purpose Registers`, in order. -/
def ebxValues (f : Frame) : List String :=
  f.registers.flatMap fun g =>
    if g.name = "General Purpose Registers" then
      g.children.filterMap fun r => if r.name = "ebx" then some r.value else none
    else []

theorem regsLines_of_no_ebx (rs : List Reg)
    (h : ∀ r ∈ rs, r.name ≠ "ebx") : regsLines rs = Except.ok [] := by
  induction rs with
  | nil => rfl
  | cons r rs ih =>
    have hr : r.name ≠ "ebx" := h r (by simp)
    simp only [regsLines, if_neg hr]
    exact ih fun r hr => h r (by simp [hr])

theorem filterMap_ebx_nil (rs : List Reg)
    (h : (rs.filterMap fun r => if r.name = "ebx" then some r.value else none) = []) :
    ∀ r ∈ rs, r.name ≠ "ebx" := by
  induction rs with
  | nil => simp
  | cons r rs ih =>
    intro r' hr'
    by_cases he : r.name = "ebx"
    · simp [List.filterMap_cons, he] at h
    · simp only [List.filterMap_cons, if_neg he] at h
      rcases List.mem_cons.mp hr' with h1 | h2
      · subst h1; exact he
      · exact ih h r' h2

theorem groupsLines_of_no_ebx :
    ∀ gs : List RegGroup,
      (gs.flatMap fun g =>
        if g.name = "General Purpose Registers" then
          g.children.filterMap fun r => if r.name = "ebx" then some r.value else none
        else []) = [] →
      groupsLines gs = Except.ok [] := by
  intro gs
  induction gs with
  | nil => intro _; rfl
  | cons g gs ih =>
    intro hv
    simp only [List.flatMap_cons, List.append_eq_nil] at hv
    by_cases hn : g.name = "General Purpose Registers"
    · simp only [if_pos hn] at hv
      have h1 := regsLines_of_no_ebx g.children (filterMap_ebx_nil _ hv.1)
      simp only [groupsLines, if_pos hn, h1, ih hv.2, List.nil_append]
    · simp only [if_neg hn] at hv
      simp only [groupsLines, if_neg hn]
      exact ih hv.2

/-- When no `ebx` register is visible to the loops, the callback prints
nothing, raises nothing, and still returns `false` (resume). -/
theorem callbackRun_no_ebx (f : Frame) (h : ebxValues f = []) :
    callbackRun f = Except.ok ([], false) := by
  have hg := groupsLines_of_no_ebx f.registers h
  simp [callbackRun, hg]

theorem regsLines_single (v : Nat) :
    ∀ (rs : List Reg) (s : String),
      (rs.filterMap fun r => if r.name = "ebx" then some r.value else none) = [s] →
      pyIntBase0 s = some v →
      regsLines rs = Except.ok ["APM: " ++ toString v] := by
  intro rs
  induction rs with
  | nil => intro s h _; simp at h
  | cons r rs ih =>
    intro s h hparse
    by_cases he : r.name = "ebx"
    · simp only [List.filterMap_cons, if_pos he, List.cons.injEq] at h
      have h2 := regsLines_of_no_ebx rs (filterMap_ebx_nil rs h.2)
      simp only [regsLines, if_pos he, h.1, hparse, h2]
    · simp only [List.filterMap_cons, if_neg he] at h
      simp only [regsLines, if_neg he]
      exact ih s h hparse

theorem groupsLines_single (v : Nat) :
    ∀ (gs : List RegGroup) (s : String),
      (gs.flatMap fun g =>
        if g.name = "General Purpose Registers" then
          g.children.filterMap fun r => if r.name = "ebx" then some r.value else none
        else []) = [s] →
      pyIntBase0 s = some v →
      groupsLines gs = Except.ok ["APM: " ++ toString v] := by
  intro gs
  induction gs with
  | nil => intro s h _; simp at h
  | cons g gs ih =>
    intro s h hparse
    by_cases hn : g.name = "General Purpose Registers"
    · simp only [List.flatMap_cons, if_pos hn] at h
      rcases ha : (g.children.filterMap fun r =>
          if r.name = "ebx" then some r.value else none) with _ | ⟨s1, a⟩
      · rw [ha, List.nil_append] at h
        have h1 := regsLines_of_no_ebx g.children (filterMap_ebx_nil _ ha)
        simp only [groupsLines, if_pos hn, h1, ih s h hparse, List.nil_append]
      · rw [ha, List.cons_append] at h
        simp only [List.cons.injEq, List.append_eq_nil] at h
        obtain ⟨hs1, hanil, hrest⟩ := h
        subst hs1 hanil
        have h2 := regsLines_single v g.children s1 (by rw [ha]) hparse
        have h3 := groupsLines_of_no_ebx gs hrest
        simp only [groupsLines, if_pos hn, h2, h3, List.append_nil]
    · simp only [List.flatMap_cons, if_neg hn, List.nil_append] at h
      simp only [groupsLines, if_neg hn]
      exact ih s h hparse

/-- When the loops see exactly one `ebx` register and its value string
parses, the callback prints exactly one `APM:` line and returns `false`. -/
theorem callbackRun_single (f : Frame) (s : String) (v : Nat)
    (h : ebxValues f = [s]) (hparse : pyIntBase0 s = some v) :
    callbackRun f = Except.ok (["APM: " ++ toString v], false) := by
  have hg := groupsLines_single v f.registers s h hparse
  simp [callbackRun, hg]

/-- Observable requests the script makes of the debugging backend, in program
order.  `installAddrBp a` is `BreakpointCreateByAddress(a)` (line 53), the only
breakpoint ever placed on the target's own code; `createInitBp` is the one-shot
gating breakpoint `BreakpointCreateByName('CGBitmapContextCreate')` (line 36);
`initBpFired` records the synchronous `Continue()` (line 38) returning, which
in synchronous mode means the one-shot breakpoint has fired (and, being
one-shot, it is then disabled for good). -/
inductive Ev where
  | attach
  | createInitBp
  | setOneShot
  | continueTarget
  | initBpFired
  | findModule
  | findSection
  | readMemory
  | installAddrBp (addr : Nat)
  | setCallback
deriving DecidableEq

/-- How a run of `starplug.py` can terminate early: each `assert
error.success` (lines 32, 39, 47, 62, 65) aborts with the failed step's
description, and `bytes.index` (line 50) raises `ValueError` when the
signature is absent. -/
inductive ScriptError where
  | attachFailed
  | resumeFailed
  | memoryReadFailed
  | signatureNotFound
  | callbackSetFailed
deriving DecidableEq

/-- Oracle responses of the debugging backend for one run of the script:
whether each fallible call succeeds, where the `__text` section of the
executable module lives, and the target's memory contents.  `moduleFound` and
`sectionFound` record whether `FindModule` / `FindSection` (lines 43-44)
return a valid object; lldb returns an *invalid* object rather than failing,
so the script cannot observe these flags directly — a read through an invalid
section's (invalid) load address simply fails, which is why `readMemoryModel`
below requires both flags. -/
structure Backend where
  attachOk : Bool
  initContinueOk : Bool
  moduleFound : Bool
  sectionFound : Bool
  sectionBase : Nat
  sectionSize : Nat
  memory : Nat → Nat
  readOk : Bool
  callbackSetOk : Bool
  finalContinueOk : Bool

/-- The instruction signature the script searches for (line 50):
`movl %ebx, 0xdc(%rax, %rcx, 4)`, i.e. `b'\x89\x9C\x88\xDC\x00\x00\x00'`. -/
def starSig : List Nat := [0x89, 0x9C, 0x88, 0xDC, 0x00, 0x00, 0x00]

/-- The `__text` section's contents: `sectionSize` bytes of target memory
starting at the section's load address `sectionBase`. -/
def codeBytes (b : Backend) : List Nat :=
  (List.range b.sectionSize).map fun i => b.memory (b.sectionBase + i)

/-- `process.ReadMemory(code_start, code_section.size, error)` (line 46): a
successful read returns exactly the requested `sectionSize` bytes from
`sectionBase`; a refused or short read (including a read through the invalid
load address produced by a failed module/section lookup) reports an error,
which the script's `assert` turns into an abort. -/
def readMemoryModel (b : Backend) : Option (List Nat) :=
  if b.readOk && b.moduleFound && b.sectionFound then some (codeBytes b) else none

/-- The events every run that reaches the memory read has performed, in
order: attach (line 31), create + arm the one-shot gating breakpoint
(lines 36-37), the blocking `Continue()` (line 38) after which the one-shot
breakpoint has fired, module and section resolution (lines 43-44, never
checked by the script), and the memory read (line 46). -/
def gateEvents : List Ev :=
  [Ev.attach, Ev.createInitBp, Ev.setOneShot, Ev.continueTarget, Ev.initBpFired,
   Ev.findModule, Ev.findSection, Ev.readMemory]

/-- Trace of backend events plus the outcome of one run of the script. -/
structure RunResult where
  trace : List Ev
  result : Except ScriptError Unit

/-- The whole of `starplug.py` as a function of the backend's responses.
Straight-line code; every `assert error.success` aborts the run, and a failed
signature search aborts with the `ValueError` that `bytes.index` raises. -/
def runScript (b : Backend) : RunResult :=
  if b.attachOk then
    if b.initContinueOk then
      match readMemoryModel b with
      | none => ⟨gateEvents, Except.error ScriptError.memoryReadFailed⟩
      | some bs =>
        match bytesIndex starSig bs with
        | none => ⟨gateEvents, Except.error ScriptError.signatureNotFound⟩
        | some off =>
          let t := gateEvents ++ [Ev.installAddrBp (b.sectionBase + off), Ev.setCallback]
          if b.callbackSetOk then
            if b.finalContinueOk then ⟨t ++ [Ev.continueTarget], Except.ok ()⟩
            else ⟨t ++ [Ev.continueTarget], Except.error ScriptError.resumeFailed⟩
          else ⟨t, Except.error ScriptError.callbackSetFailed⟩
    else ⟨[Ev.attach, Ev.createInitBp, Ev.setOneShot, Ev.continueTarget],
          Except.error ScriptError.resumeFailed⟩
  else ⟨[Ev.attach], Except.error ScriptError.attachFailed⟩

/-- Errors of the acquisition step as the spec's taxonomy names them. -/
inductive AcquireError where
  | attachFailed
  | resumeFailed
deriving DecidableEq

/-- Modelled from the spec: the `AttachExisting(pid)` acquisition path is not
present in `src/src/starplug.py` — the script hardcodes the wait-for-launch
attach-by-name path (`AttachToProcessWithName(..., True, error)`, line 31).
Per the spec it attaches directly by pid with no gating breakpoint, and fails
with `AcquireError::AttachFailed` when the pid does not exist or the attach is
refused; `attachByPid` returns `none` exactly in those cases.  The result is
the backend events performed plus the acquired handle or the error. -/
def acquireExisting (attachByPid : Nat → Option Nat) (pid : Nat) :
    List Ev × Except AcquireError Nat :=
  match attachByPid pid with
  | some h => ([Ev.attach], Except.ok h)
  | none => ([Ev.attach], Except.error AcquireError.attachFailed)

/-- Leading digit of a positive number is a nonzero digit. -/
theorem natBaseChars_head (b : Nat) (hb : 2 ≤ b) :
    ∀ v, 1 ≤ v → ∃ d rest, natBaseChars b v = digitChar d :: rest ∧ 1 ≤ d ∧ d < b := by
  intro v
  induction v using Nat.strong_induction_on with
  | _ v ih =>
    intro hv
    by_cases h : v < b ∨ b ≤ 1
    · refine ⟨v, [], ?_, hv, by omega⟩
      rw [natBaseChars, dif_pos h]
    · push_neg at h
      have hdiv : v / b < v := Nat.div_lt_self (by omega) (by omega)
      have hdiv1 : 1 ≤ v / b := Nat.one_le_div_iff (by omega) |>.mpr (by omega)
      obtain ⟨d, rest, hrep, hd1, hdb⟩ := ih (v / b) hdiv hdiv1
      refine ⟨d, rest ++ [digitChar (v % b)], ?_, hd1, hdb⟩
      rw [natBaseChars, dif_neg (by push_neg; exact h), hrep, List.cons_append]

theorem digitChar_ne_zero : ∀ d, 1 ≤ d → d < 16 → digitChar d ≠ '0' := by
  decide

/-- A backend on which every call of the script succeeds: the 7-byte
signature sits at offset 0 of a 7-byte `__text` section loaded at address 0. -/
def bGood : Backend :=
  ⟨true, true, true, true, 0, 7, fun i => starSig.getD i 0, true, true, true⟩

/-- C1: for every byte buffer `B` and signature `S` occurring in `B`, the
locate step (`bytes.index`) returns the offset of the first occurrence of `S`
(`B[offset : offset + len S] = S` and no earlier offset matches), and the
script's breakpoint is installed at the absolute address
`section_base + offset_of_match`. -/
theorem claim_C1 (B S : List Nat) (h : ∃ k, S.isPrefixOf (B.drop k) = true) :
    ∃ off, bytesIndex S B = some off ∧
      (B.drop off).take S.length = S ∧
      (∀ k, S.isPrefixOf (B.drop k) = true → off ≤ k) ∧
      (∀ b : Backend, b.attachOk = true → b.initContinueOk = true →
        readMemoryModel b = some B → S = starSig →
        Ev.installAddrBp (b.sectionBase + off) ∈ (runScript b).trace) := by
  obtain ⟨k, hk⟩ := h
  obtain ⟨j, hj⟩ := bytesIndexAux_found S B k 0 hk
  obtain ⟨d, hd0, hpre, hmin⟩ := bytesIndexAux_some S B 0 j hj
  have hjd : j = d := by omega
  rw [hjd] at hj
  refine ⟨d, hj, (isPrefixOf_take_eq S _).mp hpre, ?_, ?_⟩
  · intro k2 hk2
    by_contra hlt
    rw [hmin k2 (by omega)] at hk2
    exact absurd hk2 (by simp)
  · intro b ha hi hread hS
    have hfind : bytesIndex starSig B = some d := by rw [← hS]; exact hj
    simp only [runScript, ha, hi, if_true, hread, hfind]
    by_cases hc : b.callbackSetOk <;> by_cases hf : b.finalContinueOk <;>
      simp [hc, hf, gateEvents]

/-- Hypothesis-discharging instance of C1: the signature occurs at offset 1 of
an 8-byte buffer, and the first-occurrence and address conclusions hold. -/
theorem claim_C1_wit :
    (∃ k, starSig.isPrefixOf
      (([0x90, 0x89, 0x9C, 0x88, 0xDC, 0x00, 0x00, 0x00] : List Nat).drop k) = true) ∧
    (∃ off, bytesIndex starSig [0x90, 0x89, 0x9C, 0x88, 0xDC, 0x00, 0x00, 0x00] = some off ∧
      (([0x90, 0x89, 0x9C, 0x88, 0xDC, 0x00, 0x00, 0x00] : List Nat).drop off).take
        starSig.length = starSig ∧
      (∀ k, starSig.isPrefixOf
        (([0x90, 0x89, 0x9C, 0x88, 0xDC, 0x00, 0x00, 0x00] : List Nat).drop k) = true →
        off ≤ k) ∧
      (∀ b : Backend, b.attachOk = true → b.initContinueOk = true →
        readMemoryModel b = some [0x90, 0x89, 0x9C, 0x88, 0xDC, 0x00, 0x00, 0x00] →
        starSig = starSig →
        Ev.installAddrBp (b.sectionBase + off) ∈ (runScript b).trace)) :=
  ⟨⟨1, by decide⟩,
   claim_C1 [0x90, 0x89, 0x9C, 0x88, 0xDC, 0x00, 0x00, 0x00] starSig ⟨1, by decide⟩⟩

/-- C2: when the signature does not occur in the buffer, the locate step
fails (`bytes.index` raises, reported as `SignatureNotFound`) and no
breakpoint address is ever computed: the run installs no address breakpoint. -/
theorem claim_C2 (S B : List Nat) (h : ∀ k, S.isPrefixOf (B.drop k) = false) :
    bytesIndex S B = none ∧
    ∀ b : Backend, b.attachOk = true → b.initContinueOk = true →
      readMemoryModel b = some B → S = starSig →
      (runScript b).result = Except.error ScriptError.signatureNotFound ∧
      ∀ a, Ev.installAddrBp a ∉ (runScript b).trace := by
  have hnone := bytesIndex_eq_none S B h
  refine ⟨hnone, ?_⟩
  intro b ha hi hread hS
  have hfind : bytesIndex starSig B = none := by rw [← hS]; exact hnone
  simp only [runScript, ha, hi, if_true, hread, hfind]
  exact ⟨by trivial, by intro a; simp [gateEvents]⟩

/-- Hypothesis-discharging instance of C2: the signature occurs nowhere in a
3-byte zero buffer, the search fails, and no address breakpoint is installed. -/
theorem claim_C2_wit :
    (∀ k, starSig.isPrefixOf (([0, 0, 0] : List Nat).drop k) = false) ∧
    (bytesIndex starSig [0, 0, 0] = none ∧
     ∀ b : Backend, b.attachOk = true → b.initContinueOk = true →
       readMemoryModel b = some [0, 0, 0] → starSig = starSig →
       (runScript b).result = Except.error ScriptError.signatureNotFound ∧
       ∀ a, Ev.installAddrBp a ∉ (runScript b).trace) := by
  have hno := no_occurrence_of_bounded starSig [0, 0, 0] (by decide) (by decide)
  exact ⟨hno, claim_C2 starSig [0, 0, 0] hno⟩

/-- C3: in the launch-wait path, whenever a breakpoint is installed on the
target's own code (`installAddrBp`), the trace up to that point is exactly the
gate sequence: attach, create + arm the one-shot init breakpoint, the blocking
resume, the init breakpoint firing (exactly once, and never again later), and
the code-region read — so no address breakpoint ever precedes the single
firing of the gating breakpoint. -/
theorem claim_C3 (b : Backend) (a : Nat)
    (h : Ev.installAddrBp a ∈ (runScript b).trace) :
    ∃ s, (runScript b).trace = gateEvents ++ s ∧
      gateEvents.count Ev.initBpFired = 1 ∧
      (∀ a', Ev.installAddrBp a' ∉ gateEvents) ∧
      Ev.initBpFired ∉ s ∧
      Ev.installAddrBp a ∈ s := by
  by_cases ha : b.attachOk
  · by_cases hi : b.initContinueOk
    · rcases hread : readMemoryModel b with _ | bs
      · simp only [runScript, ha, hi, if_true, hread] at h
        simp [gateEvents] at h
      · rcases hfind : bytesIndex starSig bs with _ | off
        · simp only [runScript, ha, hi, if_true, hread, hfind] at h
          simp [gateEvents] at h
        · by_cases hc : b.callbackSetOk
          · by_cases hf : b.finalContinueOk
            · simp only [runScript, ha, hi, if_true, hread, hfind, hc, hf] at h ⊢
              refine ⟨[Ev.installAddrBp (b.sectionBase + off), Ev.setCallback,
                Ev.continueTarget], by simp, by decide, by intro a'; simp [gateEvents], by simp, ?_⟩
              simp [gateEvents] at h
              simp [h]
            · simp only [runScript, ha, hi, if_true, hread, hfind, hc, hf,
                if_true, if_false] at h ⊢
              refine ⟨[Ev.installAddrBp (b.sectionBase + off), Ev.setCallback,
                Ev.continueTarget], by simp, by decide, by intro a'; simp [gateEvents], by simp, ?_⟩
              simp [gateEvents] at h
              simp [h]
          · simp only [runScript, ha, hi, if_true, hread, hfind, hc, if_false] at h ⊢
            refine ⟨[Ev.installAddrBp (b.sectionBase + off), Ev.setCallback],
              by simp, by decide, by intro a'; simp [gateEvents], by simp, ?_⟩
            simp [gateEvents] at h
            simp [h]
    · simp only [runScript, ha, hi, if_true, if_false] at h
      simp at h
  · simp only [runScript, ha, if_false] at h
    simp at h

/-- Hypothesis-discharging instance of C3 on the all-success backend: the
address breakpoint at `0 + 0` is installed, and only after the gate. -/
theorem claim_C3_wit :
    Ev.installAddrBp 0 ∈ (runScript bGood).trace ∧
    (∃ s, (runScript bGood).trace = gateEvents ++ s ∧
      gateEvents.count Ev.initBpFired = 1 ∧
      (∀ a', Ev.installAddrBp a' ∉ gateEvents) ∧
      Ev.initBpFired ∉ s ∧
      Ev.installAddrBp 0 ∈ s) :=
  ⟨by decide, claim_C3 bGood 0 (by decide)⟩

/-- C4: whenever the breakpoint callback returns, its return value is
`false` — the value that tells the synchronous control mechanism to resume the
target rather than halt interactively (`return False`, line 60). -/
theorem claim_C4 (f : Frame) (out : List String × Bool)
    (h : callbackRun f = Except.ok out) : out.2 = false := by
  unfold callbackRun at h
  rcases hg : groupsLines f.registers with e | ls <;> rw [hg] at h
  · cases h
  · cases h
    rfl

/-- Hypothesis-discharging instance of C4 on a frame with one `ebx` hit. -/
theorem claim_C4_wit :
    callbackRun ⟨[⟨"General Purpose Registers", [⟨"ebx", "31"⟩]⟩]⟩ =
      Except.ok (["APM: 31"], false) ∧
    ((["APM: 31"], false) : List String × Bool).2 = false :=
  ⟨rfl, claim_C4 ⟨[⟨"General Purpose Registers", [⟨"ebx", "31"⟩]⟩]⟩ (["APM: 31"], false) rfl⟩

/-- A frame whose general-purpose group holds no register named `ebx`. -/
def fNoEbx : Frame :=
  ⟨[⟨"General Purpose Registers", [⟨"eax", "5"⟩, ⟨"rbx", "7"⟩]⟩]⟩

/-- Counterexample to C5: on a frame where the designated register `ebx`
cannot be located in the general-purpose group, the handler raises no error at
all — it returns successfully with no output and `false` (resume), rather
than failing with a `RegisterNotFound` error. -/
theorem claim_C5_cex :
    ebxValues fNoEbx = [] ∧
    callbackRun fNoEbx = Except.ok ([], false) ∧
    ∀ e, callbackRun fNoEbx ≠ Except.error e := by
  refine ⟨rfl, rfl, ?_⟩
  intro e h
  rw [show callbackRun fNoEbx = Except.ok ([], false) from rfl] at h
  cases h

/-- C5 amended: when the designated register cannot be located among the
general-purpose registers of the frame, the handler silently does nothing —
it emits no line, raises no error (the callback has no missing-register error
path), and still returns `false` so the target resumes. -/
theorem claim_C5_amended (f : Frame) (h : ebxValues f = []) :
    callbackRun f = Except.ok ([], false) ∧
    ∀ e, callbackRun f ≠ Except.error e := by
  have hr := callbackRun_no_ebx f h
  refine ⟨hr, ?_⟩
  intro e he
  rw [hr] at he
  cases he

/-- Hypothesis-discharging instance of the amended C5. -/
theorem claim_C5_amended_wit :
    ebxValues fNoEbx = [] ∧
    (callbackRun fNoEbx = Except.ok ([], false) ∧
     ∀ e, callbackRun fNoEbx ≠ Except.error e) :=
  ⟨rfl, claim_C5_amended fNoEbx rfl⟩

/-- C6 (spec-modelled, the `AttachExisting` path is absent from the source):
attaching to an existing pid performs the attach request and nothing else — in
particular no gating breakpoint — and fails with `AcquireError::AttachFailed`
exactly when the pid cannot be attached to (nonexistent pid or refused
attach, both the cases where `attachByPid` yields `none`). -/
theorem claim_C6 (attachByPid : Nat → Option Nat) (pid : Nat)
    (h : attachByPid pid = none) :
    (acquireExisting attachByPid pid).2 = Except.error AcquireError.attachFailed ∧
    ∀ (g : Nat → Option Nat) (q : Nat), (acquireExisting g q).1 = [Ev.attach] := by
  constructor
  · unfold acquireExisting
    rw [h]
  · intro g q
    unfold acquireExisting
    rcases g q with _ | hd <;> rfl

/-- Hypothesis-discharging instance of C6: pid 1234 does not exist. -/
theorem claim_C6_wit :
    (fun _ : Nat => (none : Option Nat)) 1234 = none ∧
    ((acquireExisting (fun _ => none) 1234).2 = Except.error AcquireError.attachFailed ∧
     ∀ (g : Nat → Option Nat) (q : Nat), (acquireExisting g q).1 = [Ev.attach]) :=
  ⟨rfl, claim_C6 (fun _ => none) 1234 rfl⟩

/-- A backend on which the `__text` section lookup fails; everything else,
including the memory-read permission flag, would succeed. -/
def bNoSection : Backend :=
  ⟨true, true, true, false, 4096, 7, fun _ => 0, true, true, true⟩

/-- Counterexample to C7: with a failed section lookup the script does not
fail with a `SectionNotFound` error before reading memory — it has no check at
all after `FindModule`/`FindSection`, attempts the memory read anyway (the
read through the invalid section fails), and aborts only on the read's error. -/
theorem claim_C7_cex :
    bNoSection.sectionFound = false ∧
    Ev.readMemory ∈ (runScript bNoSection).trace ∧
    (runScript bNoSection).result = Except.error ScriptError.memoryReadFailed := by
  refine ⟨rfl, by decide, ?_⟩
  rfl

/-- C7 amended: the script resolves the target's executable module and its
`__text` section but checks neither lookup; when either fails, the subsequent
memory read is still attempted, and the run aborts at that read's failed
assertion (a memory-read failure), not with a distinct module/section error
before any read. -/
theorem claim_C7_amended (b : Backend)
    (ha : b.attachOk = true) (hi : b.initContinueOk = true)
    (h : b.moduleFound = false ∨ b.sectionFound = false) :
    Ev.findModule ∈ (runScript b).trace ∧
    Ev.findSection ∈ (runScript b).trace ∧
    Ev.readMemory ∈ (runScript b).trace ∧
    (runScript b).result = Except.error ScriptError.memoryReadFailed := by
  have hread : readMemoryModel b = none := by
    unfold readMemoryModel
    rcases h with h | h <;> simp [h]
  simp only [runScript, ha, hi, if_true, hread]
  refine ⟨by simp [gateEvents], by simp [gateEvents], by simp [gateEvents], by trivial⟩

/-- Hypothesis-discharging instance of the amended C7. -/
theorem claim_C7_amended_wit :
    bNoSection.attachOk = true ∧ bNoSection.initContinueOk = true ∧
    (bNoSection.moduleFound = false ∨ bNoSection.sectionFound = false) ∧
    (Ev.findModule ∈ (runScript bNoSection).trace ∧
     Ev.findSection ∈ (runScript bNoSection).trace ∧
     Ev.readMemory ∈ (runScript bNoSection).trace ∧
     (runScript bNoSection).result = Except.error ScriptError.memoryReadFailed) :=
  ⟨rfl, rfl, Or.inr rfl, claim_C7_amended bNoSection rfl rfl (Or.inr rfl)⟩

/-- C8: a successful capture of the code region yields exactly
`code_section.size` bytes, byte `i` being the target's memory at
`code_start + i`; the signature search then runs over exactly that buffer
(its failure is equivalent to the search over those bytes failing); and a
refused or short read aborts the run as a memory-read failure with no
breakpoint ever installed. -/
theorem claim_C8 (b : Backend)
    (ha : b.attachOk = true) (hi : b.initContinueOk = true) :
    (∀ bs, readMemoryModel b = some bs →
      bs.length = b.sectionSize ∧
      (∀ i, i < b.sectionSize → bs.getD i 0 = b.memory (b.sectionBase + i)) ∧
      ((runScript b).result = Except.error ScriptError.signatureNotFound ↔
        bytesIndex starSig bs = none)) ∧
    (readMemoryModel b = none →
      (runScript b).result = Except.error ScriptError.memoryReadFailed ∧
      ∀ a, Ev.installAddrBp a ∉ (runScript b).trace) := by
  constructor
  · intro bs hbs
    have hbs2 : bs = codeBytes b := by
      unfold readMemoryModel at hbs
      by_cases hg : (b.readOk && b.moduleFound && b.sectionFound) = true
      · rw [hg] at hbs
        simp only [if_true] at hbs
        exact (Option.some.injEq _ _ ▸ hbs).symm
      · rw [Bool.eq_false_iff.mpr hg] at hbs
        simp at hbs
    refine ⟨?_, ?_, ?_⟩
    · rw [hbs2]; simp [codeBytes]
    · intro i hi2
      rw [hbs2]
      simp only [codeBytes]
      rw [List.getD_eq_getElem?_getD, List.getElem?_map, List.getElem?_range hi2]
      rfl
    · simp only [runScript, ha, hi, if_true, hbs]
      rcases hfind : bytesIndex starSig bs with _ | off
      · simp
      · by_cases hc : b.callbackSetOk <;> by_cases hf : b.finalContinueOk <;>
          simp [hc, hf]
  · intro hread
    simp only [runScript, ha, hi, if_true, hread]
    exact ⟨by trivial, by intro a; simp [gateEvents]⟩

/-- Hypothesis-discharging instance of C8 on the all-success backend. -/
theorem claim_C8_wit :
    bGood.attachOk = true ∧ bGood.initContinueOk = true ∧
    ((∀ bs, readMemoryModel bGood = some bs →
       bs.length = bGood.sectionSize ∧
       (∀ i, i < bGood.sectionSize → bs.getD i 0 = bGood.memory (bGood.sectionBase + i)) ∧
       ((runScript bGood).result = Except.error ScriptError.signatureNotFound ↔
         bytesIndex starSig bs = none)) ∧
     (readMemoryModel bGood = none →
       (runScript bGood).result = Except.error ScriptError.memoryReadFailed ∧
       ∀ a, Ev.installAddrBp a ∉ (runScript bGood).trace)) :=
  ⟨rfl, rfl, claim_C8 bGood rfl rfl⟩

/-- A frame in which the loops of the callback meet two registers named
`ebx` inside general-purpose groups. -/
def fDup : Frame :=
  ⟨[⟨"General Purpose Registers", [⟨"ebx", "5"⟩, ⟨"ebx", "5"⟩]⟩]⟩

/-- A frame with exactly one `ebx`, its value rendered in hexadecimal. -/
def fOne : Frame :=
  ⟨[⟨"General Purpose Registers", [⟨"ebx", "0x1f"⟩]⟩]⟩

/-- Counterexample to C9: the callback prints one line per matching register,
not exactly one line per hit — a frame that presents `ebx` twice in the
general-purpose group gets two `APM:` lines on a single hit. -/
theorem claim_C9_cex :
    ebxValues fDup ≠ [] ∧
    callbackRun fDup = Except.ok (["APM: 5", "APM: 5"], false) ∧
    (["APM: 5", "APM: 5"] : List String).length ≠ 1 :=
  ⟨by decide, rfl, by decide⟩

/-- C9 amended: the callback emits one `APM: <value>` line per occurrence of
the designated register in the general-purpose groups; in particular, when
that register occurs exactly once (every well-formed frame) and its value
parses, exactly one tagged line with the register's integer value is printed. -/
theorem claim_C9_amended (f : Frame) (s : String) (v : Nat)
    (h : ebxValues f = [s]) (hp : pyIntBase0 s = some v) :
    callbackRun f = Except.ok (["APM: " ++ toString v], false) :=
  callbackRun_single f s v h hp

/-- Hypothesis-discharging instance of the amended C9. -/
theorem claim_C9_amended_wit :
    ebxValues fOne = ["0x1f"] ∧
    pyIntBase0 "0x1f" = some 31 ∧
    callbackRun fOne = Except.ok (["APM: " ++ toString 31], false) :=
  ⟨rfl, rfl, claim_C9_amended fOne "0x1f" 31 rfl rfl⟩

/-- A frame whose single general-purpose group holds exactly one `ebx`
register, its value rendered as the string `s`. -/
def frameWith (s : String) : Frame :=
  ⟨[⟨"General Purpose Registers", [⟨"ebx", s⟩]⟩]⟩

theorem ebxValues_frameWith (s : String) : ebxValues (frameWith s) = [s] := rfl

/-- C10: the register's value is parsed with automatic base detection
(`int(value, 0)`), so a hexadecimal rendering `0x…` and a decimal rendering
of the same number parse to the same integer (concretely, `0x1f` and `31`
both yield 31), and the printed number is the register's numeric value
whichever of the two formats the backend uses. -/
theorem claim_C10 (v : Nat) :
    pyIntChars ('0' :: 'x' :: natBaseChars 16 v) = some v ∧
    pyIntChars (natBaseChars 10 v) = some v ∧
    pyIntBase0 "0x1f" = some 31 ∧
    pyIntBase0 "31" = some 31 ∧
    callbackRun (frameWith ⟨'0' :: 'x' :: natBaseChars 16 v⟩) =
      Except.ok (["APM: " ++ toString v], false) ∧
    callbackRun (frameWith ⟨natBaseChars 10 v⟩) =
      Except.ok (["APM: " ++ toString v], false) := by
  have h16 : pyIntChars ('0' :: 'x' :: natBaseChars 16 v) = some v := by
    have e1 : pyIntChars ('0' :: 'x' :: natBaseChars 16 v)
        = parseDigits 16 (natBaseChars 16 v) := by
      simp [pyIntChars]
    rw [e1, parseDigits_natBaseChars 16 (by norm_num) (by norm_num)]
  have h10 : pyIntChars (natBaseChars 10 v) = some v := by
    rcases Nat.eq_zero_or_pos v with hv | hv
    · subst hv
      have e0 : natBaseChars 10 0 = ['0'] := by
        rw [natBaseChars]
        simp
        decide
      rw [e0]
      simp [pyIntChars]
    · obtain ⟨d, rest, hrep, hd1, hd10⟩ := natBaseChars_head 10 (by norm_num) v hv
      have hne : digitChar d ≠ '0' := digitChar_ne_zero d hd1 (by omega)
      rw [hrep]
      simp only [pyIntChars, if_neg hne]
      rw [← hrep, parseDigits_natBaseChars 10 (by norm_num) (by norm_num)]
  refine ⟨h16, h10, rfl, rfl, ?_, ?_⟩
  · exact callbackRun_single _ _ v (ebxValues_frameWith _) h16
  · exact callbackRun_single _ _ v (ebxValues_frameWith _) h10
